import Mathlib

/-!
# Verification of the mcp-memory-sqlite graph store

A shallow embedding of the SQLite-backed knowledge-graph store
(`src/db/client.ts` and its text-only variant): entities, observations,
relations and the `entities_vec` embedding table, together with the
operations `create_entities`, `get_entity`, `search_entities`,
`create_relations`, `delete_entity`.

Modelling conventions:
* A table is a list of rows in insertion order (SQLite returns rows of the
  per-entity queries used here in rowid order, which coincides with
  insertion order because observation/relation ids are `AUTOINCREMENT`).
* SQLite assigns a fresh rowid as `max(rowid) + 1`; entities and the
  `entities_vec` virtual table each get their own rowid sequence, exactly
  as in SQLite, where `INSERT INTO entities_vec (embedding) VALUES (?)`
  does not copy the entity's rowid.
* `created_at` (`DATETIME DEFAULT CURRENT_TIMESTAMP`) is modelled by a
  strictly monotone logical clock, so creation times are totally ordered.
* Vector components are modelled as exact integers (`Int`): the claims
  under study concern which entity an embedding is attached to, not
  float rounding, and the code's NaN/Infinity sanitization is vacuous on
  well-typed finite inputs.
* A transaction (`better-sqlite3`'s `db.transaction`) is all-or-nothing:
  each mutating operation returns the new state paired with
  `Option String`; on `some err` the state reverts to the pre-call state
  (rollback), which is what the driver guarantees.
* JS `typeof` checks are vacuous here because inputs are typed; `x.trim()
  === ''` on a string is "every character is whitespace".
-/

namespace MemStore

/-- ASCII whitespace as recognized by JS `trim` / the regex class `\s`
(the Unicode additions are irrelevant to the stored data modelled here). -/
def isWhite (c : Char) : Bool :=
  c = ' ' || c = '\t' || c = '\n' || c = '\r' || c = '\x0b' || c = '\x0c'

/-- `s.trim() === ''` in JS: the string has no non-whitespace character. -/
def str_blank (s : String) : Bool :=
  s.data.all isWhite

/-- Row of the `entities` table: hidden SQLite rowid, `name` (PRIMARY KEY),
`entity_type`, `created_at`. -/
structure EntityRow where
  rowid : Nat
  name : String
  entity_type : String
  created_at : Nat
deriving DecidableEq

/-- Row of the `observations` table (the `id` column is never consulted;
list position carries the insertion order it induces). -/
structure ObsRow where
  entity_name : String
  content : String
deriving DecidableEq

/-- Row of the `relations` table. The TS input type names the endpoints
`from`/`to`; `from` is a Lean keyword, so the SQL column names
`source`/`target` are used throughout. -/
structure RelRow where
  source : String
  target : String
  relation_type : String
deriving DecidableEq

/-- Row of the `entities_vec` vec0 virtual table: its own rowid plus the
stored embedding. -/
structure VecRow where
  rowid : Nat
  embedding : List Int
deriving DecidableEq

/-- The whole database state. `clock` is the logical time source for
`created_at`. -/
structure DB where
  entities : List EntityRow
  observations : List ObsRow
  relations : List RelRow
  vec : List VecRow
  clock : Nat
deriving DecidableEq

/-- The empty, freshly initialized database. -/
def DB.empty : DB := ⟨[], [], [], [], 0⟩

/-- Input item of `create_entities`. -/
structure EntityInput where
  name : String
  entityType : String
  observations : List String
  embedding : Option (List Int) := none
deriving DecidableEq

/-- Entity as returned to callers by `get_entity` / search. -/
structure Entity where
  name : String
  entityType : String
  observations : List String
  embedding : Option (List Int) := none
deriving DecidableEq

/-- `VECTOR_DIMENSIONS` from `client.ts`. -/
def VECTOR_DIMENSIONS : Nat := 1536

/-- `SELECT ... FROM entities WHERE name = ?` (first matching row). -/
def findEntity (db : DB) (n : String) : Option EntityRow :=
  db.entities.find? (fun r => r.name == n)

/-- Does an entity row with this name exist? -/
def entity_exists (db : DB) (n : String) : Bool :=
  (findEntity db n).isSome

/-- SQLite rowid assignment for an insert without explicit rowid:
`max(existing rowids) + 1`. -/
def nextRowid (l : List Nat) : Nat :=
  l.foldr max 0 + 1

/-- `SELECT content FROM observations WHERE entity_name = ?`, in rowid
(= insertion) order. -/
def obs_of (db : DB) (n : String) : List String :=
  (db.observations.filter (fun o => o.entity_name == n)).map (·.content)

/-- The embedding `get_entity` reports for entity row `r`: the
`entities_vec` row joined on `v.rowid = e.rowid`. -/
def emb_at (db : DB) (rid : Nat) : Option (List Int) :=
  (db.vec.find? (fun v => v.rowid == rid)).map (·.embedding)

/-- The observable embedding of a named entity (the join used by
`get_entity` and the search paths). -/
def emb_of (db : DB) (n : String) : Option (List Int) :=
  match findEntity db n with
  | none => none
  | some r => emb_at db r.rowid

/-- `get_entity` (`client.ts`): Not-Found unless a row with the name
exists; otherwise the row, its observations, and the rowid-joined
embedding. -/
def get_entity (db : DB) (n : String) : Except String Entity :=
  match findEntity db n with
  | none => .error ("Entity not found: " ++ n)
  | some r =>
      .ok { name := r.name
            entityType := r.entity_type
            observations := obs_of db n
            embedding := emb_at db r.rowid }

/-- Validation performed by `create_entities` on each batch item:
non-blank name, non-blank type, a non-empty list of non-blank
observations. -/
def valid_entity (e : EntityInput) : Bool :=
  !str_blank e.name && !str_blank e.entityType &&
    !e.observations.isEmpty && e.observations.all (fun o => !str_blank o)

/-- `DELETE FROM observations WHERE entity_name = ?` followed by one
`INSERT` per new observation. -/
def replace_observations (db : DB) (n : String) (new : List String) : DB :=
  { db with
      observations :=
        db.observations.filter (fun o => !(o.entity_name == n)) ++
          new.map (fun c => ⟨n, c⟩) }

/-- The embedding branch of `create_entities`: dimension check
(`vector_to_buffer`), then update the `entities_vec` row at the entity's
rowid if one exists, else `INSERT INTO entities_vec (embedding)` — which
lets SQLite assign the vec table's own next rowid, NOT the entity's. -/
def store_embedding (db : DB) (rid : Nat) (emb : List Int) :
    Except String DB :=
  if emb.length ≠ VECTOR_DIMENSIONS then
    .error "Vector dimension mismatch"
  else if db.vec.any (fun v => v.rowid == rid) then
    .ok { db with
            vec := db.vec.map (fun v =>
              if v.rowid == rid then { v with embedding := emb } else v) }
  else
    .ok { db with
            vec := db.vec ++ [⟨nextRowid (db.vec.map (·.rowid)), emb⟩] }

/-- The entity-row step of `create_entities`: `UPDATE entities SET
entity_type = ?` if a row with the name exists, else `INSERT INTO
entities` with a fresh rowid and the current timestamp. Returns the new
state and the rowid of the entity's row (the value of the
`SELECT rowid FROM entities WHERE name = ?` subqueries that follow). -/
def upsert_row (db : DB) (e : EntityInput) : DB × Nat :=
  match findEntity db e.name with
  | some r =>
      ({ db with
           entities := db.entities.map (fun x =>
             if x.name == e.name then
               { x with entity_type := e.entityType }
             else x) },
       r.rowid)
  | none =>
      let rid := nextRowid (db.entities.map (·.rowid))
      ({ db with
           entities :=
             db.entities ++ [⟨rid, e.name, e.entityType, db.clock⟩]
           clock := db.clock + 1 },
       rid)

/-- Processing of a single batch item inside the `create_entities`
transaction: validate, insert-or-update the entity row, handle the
embedding, then replace the observation set. -/
def upsert_one (db : DB) (e : EntityInput) : Except String DB :=
  if str_blank e.name then
    .error "Entity name must be a non-empty string"
  else if str_blank e.entityType then
    .error ("Invalid entity type for entity " ++ e.name)
  else if e.observations.isEmpty then
    .error ("Entity " ++ e.name ++ " must have at least one observation")
  else if !e.observations.all (fun o => !str_blank o) then
    .error ("Entity " ++ e.name ++ " has invalid observations")
  else
    match e.embedding with
    | none =>
        .ok (replace_observations (upsert_row db e).1 e.name
          e.observations)
    | some emb =>
        match store_embedding (upsert_row db e).1 (upsert_row db e).2
            emb with
        | .error m => .error m
        | .ok db2 =>
            .ok (replace_observations db2 e.name e.observations)

/-- The body of the `create_entities` transaction, over the whole batch. -/
def create_entities_go (db : DB) : List EntityInput → Except String DB
  | [] => .ok db
  | e :: es =>
      match upsert_one db e with
      | .error m => .error m
      | .ok db1 => create_entities_go db1 es

/-- `create_entities`: run the batch in one transaction; on any error the
transaction rolls back, so the state is the pre-call state. -/
def create_entities (db : DB) (es : List EntityInput) :
    DB × Option String :=
  match create_entities_go db es with
  | .ok db1 => (db1, none)
  | .error m => (db, some ("Entity operation failed: " ++ m))

/-- Does a relation with exactly this `(source, target, relation_type)`
triple exist (the `UNIQUE` key of the `relations` table)? -/
def has_triple (rels : List RelRow) (r : RelRow) : Bool :=
  rels.any (fun x =>
    x.source == r.source && x.target == r.target &&
      x.relation_type == r.relation_type)

/-- One `INSERT OR IGNORE INTO relations ...`: a duplicate of the UNIQUE
triple is silently skipped; otherwise the row is inserted — subject to the
`FOREIGN KEY` constraints on `source` and `target`, which are enforced
(`PRAGMA foreign_keys = ON`) and are NOT suppressed by `OR IGNORE`. -/
def insert_relation (db : DB) (r : RelRow) : Except String DB :=
  if has_triple db.relations r then
    .ok db
  else if entity_exists db r.source && entity_exists db r.target then
    .ok { db with relations := db.relations ++ [r] }
  else
    .error "FOREIGN KEY constraint failed"

/-- The body of the `create_relations` transaction. -/
def create_relations_go (db : DB) : List RelRow → Except String DB
  | [] => .ok db
  | r :: rs =>
      match insert_relation db r with
      | .error m => .error m
      | .ok db1 => create_relations_go db1 rs

/-- `create_relations`: empty batch is a no-op; otherwise all inserts run
in one transaction, rolled back entirely on error. -/
def create_relations (db : DB) (rs : List RelRow) : DB × Option String :=
  if rs.isEmpty then (db, none)
  else
    match create_relations_go db rs with
    | .ok db1 => (db1, none)
    | .error m => (db, some ("Failed to create relations: " ++ m))

/-- `delete_entity`: Not-Found check first; then, in one transaction,
delete the entity's observations, every relation touching it, the
`entities_vec` row at the entity's rowid, and the entity row. -/
def delete_entity (db : DB) (n : String) : DB × Option String :=
  match findEntity db n with
  | none =>
      (db, some ("Failed to delete entity " ++ n ++ ": Entity not found"))
  | some r =>
      ({ entities := db.entities.filter (fun x => !(x.name == n))
         observations :=
           db.observations.filter (fun o => !(o.entity_name == n))
         relations := db.relations.filter (fun x =>
           !(x.source == n) && !(x.target == n))
         vec := db.vec.filter (fun v => !(v.rowid == r.rowid))
         clock := db.clock },
       none)

/-! ## Text search (the text-only variant's `search_entities`) -/

/-- Characters collapsed by the query normalization regex `[\s_-]+`:
whitespace, underscore, hyphen. -/
def isSep (c : Char) : Bool :=
  isWhite c || c = '_' || c = '-'

/-- Worker for `normChars`: the flag records whether the previous
character belonged to a separator run already emitted as `%`. -/
def normGo : Bool → List Char → List Char
  | _, [] => []
  | inRun, c :: cs =>
      if isSep c then
        if inRun then normGo true cs else '%' :: normGo true cs
      else c :: normGo false cs

/-- `query.replace(/[\s_-]+/g, '%')`: each maximal run of separator
characters becomes a single `%`. -/
def normChars (s : List Char) : List Char :=
  normGo false s

/-- The LIKE pattern built by `search_entities`:
`'%' + normalized + '%'`. -/
def search_pattern (q : String) : List Char :=
  '%' :: (normChars q.data ++ ['%'])

/-- Case folding used by SQLite's LIKE / COLLATE NOCASE (ASCII only). -/
def lowerChar (c : Char) : Char :=
  c.toLower

/-- `likeStar f s` holds when `f` accepts some suffix of `s`: the
semantics of a `%` wildcard followed by the rest of the pattern. -/
def likeStar (f : List Char → Bool) : List Char → Bool
  | [] => f []
  | c :: s => f (c :: s) || likeStar f s

/-- SQL LIKE matching (no ESCAPE clause): `%` matches any run, `_` one
character, anything else itself case-insensitively. -/
def like : List Char → List Char → Bool
  | [], s => s.isEmpty
  | '%' :: p, s => likeStar (fun t => like p t) s
  | '_' :: p, _ :: s => like p s
  | _ :: _, [] => false
  | c :: p, d :: s => (lowerChar c == lowerChar d) && like p s

/-- The WHERE clause: the pattern matches the entity's name, its type, or
the content of one of its observations (via the LEFT JOIN). -/
def entity_matches (db : DB) (pat : List Char) (e : EntityRow) : Bool :=
  like pat e.name.data || like pat e.entity_type.data ||
    (obs_of db e.name).any (fun c => like pat c.data)

/-- The CASE expression: 3 on a name match, 2 on a type match, else 1. -/
def relevance_score (pat : List Char) (e : EntityRow) : Nat :=
  if like pat e.name.data then 3
  else if like pat e.entity_type.data then 2
  else 1

/-- `ORDER BY relevance_score DESC, created_at DESC` as a total preorder
on entity rows. -/
def search_le (pat : List Char) (a b : EntityRow) : Prop :=
  relevance_score pat a > relevance_score pat b ∨
    (relevance_score pat a = relevance_score pat b ∧
      b.created_at ≤ a.created_at)

instance (pat : List Char) : DecidableRel (search_le pat) := fun _ _ => by
  unfold search_le; infer_instance

instance (pat : List Char) : IsTotal EntityRow (search_le pat) :=
  ⟨by intro a b; unfold search_le; omega⟩

instance (pat : List Char) : IsTrans EntityRow (search_le pat) :=
  ⟨by intro a b c; unfold search_le; omega⟩

/-- `Math.min(Math.max(1, limit), 50)`. -/
def effective_limit (limit : Int) : Nat :=
  (min (max 1 limit) 50).toNat

/-- The row set produced by the search query: filter by the WHERE clause,
order by `(relevance_score DESC, created_at DESC)`, truncate to the
clamped limit. (`DISTINCT` is inherent: one row per entity row.) -/
def search_rows (db : DB) (q : String) (limit : Int) : List EntityRow :=
  let pat := search_pattern q
  ((db.entities.filter (entity_matches db pat)).insertionSort
      (search_le pat)).take (effective_limit limit)

/-- Result assembly: each returned row is completed with its observation
set (this variant of the store carries no embeddings in search output). -/
def entity_of (db : DB) (r : EntityRow) : Entity :=
  { name := r.name
    entityType := r.entity_type
    observations := obs_of db r.name
    embedding := none }

/-- `search_entities (query, limit)` of the text-only variant. -/
def search_entities (db : DB) (q : String) (limit : Int) : List Entity :=
  (search_rows db q limit).map (entity_of db)

/-! ## Helper lemmas -/

lemma obs_filter_self (n : String) (l : List ObsRow) :
    (l.filter (fun o => !(o.entity_name == n))).filter
      (fun o => o.entity_name == n) = [] := by
  induction l with
  | nil => rfl
  | cons o os ih =>
      cases h : o.entity_name == n <;>
        simp [List.filter_cons, h, ih]

lemma filter_map_self (n : String) (new : List String) :
    (((new.map (fun c => (⟨n, c⟩ : ObsRow))).filter
        (fun o => o.entity_name == n)).map (·.content)) = new := by
  induction new with
  | nil => rfl
  | cons c cs ih => simp [List.filter_cons, ih]

lemma obs_of_replace (db : DB) (n : String) (new : List String) :
    obs_of (replace_observations db n new) n = new := by
  unfold obs_of replace_observations
  simp only [List.filter_append, List.map_append, obs_filter_self,
    List.map_nil, List.nil_append, filter_map_self]

lemma upsert_obs {db : DB} {e : EntityInput} {db' : DB}
    (h : upsert_one db e = .ok db') :
    obs_of db' e.name = e.observations := by
  unfold upsert_one at h
  split at h
  · cases h
  split at h
  · cases h
  split at h
  · cases h
  split at h
  · cases h
  cases he : e.embedding with
  | none =>
      simp only [he] at h
      injection h with h
      rw [← h]
      exact obs_of_replace ..
  | some emb =>
      simp only [he] at h
      split at h
      · cases h
      · injection h with h
        rw [← h]
        exact obs_of_replace ..

lemma create_single_ok {db : DB} {e : EntityInput} {db' : DB}
    (h : create_entities db [e] = (db', none)) :
    upsert_one db e = .ok db' := by
  simp only [create_entities, create_entities_go] at h
  cases hu : upsert_one db e with
  | error m =>
      rw [hu] at h
      simp at h
  | ok db1 =>
      rw [hu] at h
      simp at h
      rw [h]

/-- C1: upserting an existing entity name through `create_entities`
replaces its stored observation set with exactly the new set — the old
set is fully discarded (replace, not merge). -/
theorem upsert_replaces_observations (db : DB) (e : EntityInput)
    (db' : DB) (_hex : entity_exists db e.name = true)
    (h : create_entities db [e] = (db', none)) :
    obs_of db' e.name = e.observations :=
  upsert_obs (create_single_ok h)

def dbC1 : DB :=
  (create_entities DB.empty [⟨"A", "T", ["old1", "old2"], none⟩]).1

theorem upsert_replaces_observations_witness :
    entity_exists dbC1 "A" = true ∧
    obs_of (create_entities dbC1 [⟨"A", "T2", ["new"], none⟩]).1 "A" =
      ["new"] := by
  refine ⟨by decide, ?_⟩
  exact upsert_replaces_observations dbC1 ⟨"A", "T2", ["new"], none⟩
    (create_entities dbC1 [⟨"A", "T2", ["new"], none⟩]).1 (by decide) rfl

lemma upsert_invalid (e : EntityInput) (hv : valid_entity e = false)
    (db : DB) : ∃ m, upsert_one db e = .error m := by
  unfold valid_entity at hv
  unfold upsert_one
  cases h1 : str_blank e.name <;> cases h2 : str_blank e.entityType <;>
    cases h3 : e.observations.isEmpty <;>
    cases h4 : e.observations.all (fun o => !str_blank o) <;>
    simp [h1, h2, h3, h4] at hv ⊢

lemma create_go_invalid (es : List EntityInput) :
    ∀ db : DB, (∃ e ∈ es, valid_entity e = false) →
      ∃ m, create_entities_go db es = .error m := by
  induction es with
  | nil => simp
  | cons e tl ih =>
      intro db h
      rcases h with ⟨x, hx, hvx⟩
      rcases List.mem_cons.mp hx with rfl | hxtl
      · obtain ⟨m, hm⟩ := upsert_invalid x hvx db
        exact ⟨m, by simp [create_entities_go, hm]⟩
      · cases hu : upsert_one db e with
        | error m => exact ⟨m, by simp [create_entities_go, hu]⟩
        | ok db1 =>
            obtain ⟨m, hm⟩ := ih db1 ⟨x, hxtl, hvx⟩
            exact ⟨m, by simp [create_entities_go, hu, hm]⟩

/-- C4: a `create_entities` batch containing any invalid item (blank
name, blank type, empty observation list, or a blank observation) fails
as a whole: the call reports an error and the store is exactly the
pre-call store. -/
theorem create_entities_atomic_validation (db : DB)
    (es : List EntityInput) (h : ∃ e ∈ es, valid_entity e = false) :
    (create_entities db es).1 = db ∧
    (create_entities db es).2.isSome = true := by
  obtain ⟨m, hm⟩ := create_go_invalid es db h
  simp [create_entities, hm]

theorem create_entities_atomic_validation_witness :
    (create_entities dbC1
      [⟨"ok", "T", ["o"], none⟩, ⟨" ", "T", ["o"], none⟩]).1 = dbC1 ∧
    (create_entities dbC1
      [⟨"ok", "T", ["o"], none⟩, ⟨" ", "T", ["o"], none⟩]).2.isSome =
      true :=
  create_entities_atomic_validation dbC1 _
    ⟨⟨" ", "T", ["o"], none⟩, by simp, by decide⟩

/-- C2: deleting an existing entity removes, in one transaction, its
observations, its `entities_vec` row (its observable embedding), every
relation naming it as source or target, and the entity row itself, so a
subsequent `get_entity` fails Not-Found; deleting a non-existent name
fails Not-Found and leaves the store unchanged. -/
theorem delete_entity_cascades (db : DB) (n : String) :
    (∀ r : EntityRow, findEntity db n = some r →
      (delete_entity db n).2 = none ∧
      obs_of (delete_entity db n).1 n = [] ∧
      (∀ rel ∈ (delete_entity db n).1.relations,
        rel.source ≠ n ∧ rel.target ≠ n) ∧
      (∀ v ∈ (delete_entity db n).1.vec, v.rowid ≠ r.rowid) ∧
      get_entity (delete_entity db n).1 n =
        .error ("Entity not found: " ++ n)) ∧
    (findEntity db n = none →
      delete_entity db n =
        (db, some ("Failed to delete entity " ++ n ++
          ": Entity not found"))) := by
  constructor
  · intro r hr
    simp only [delete_entity, hr]
    refine ⟨trivial, ?_, ?_, ?_, ?_⟩
    · simp only [obs_of, obs_filter_self, List.map_nil]
    · intro rel hrel
      have := (List.mem_filter.mp hrel).2
      simp only [Bool.and_eq_true, Bool.not_eq_true', beq_eq_false_iff_ne]
        at this
      exact this
    · intro v hv
      have := (List.mem_filter.mp hv).2
      simpa using this
    · have hnone :
          (db.entities.filter (fun x => !(x.name == n))).find?
            (fun x => x.name == n) = none := by
        rw [List.find?_eq_none]
        intro x hx
        have := (List.mem_filter.mp hx).2
        simpa using this
      simp only [get_entity, findEntity, hnone]
  · intro hr
    simp only [delete_entity, hr]

def dbC2 : DB :=
  (create_relations
    (create_entities DB.empty
      [⟨"A", "T", ["oa"], some (List.replicate 1536 1)⟩,
       ⟨"B", "T2", ["ob"], none⟩]).1
    [⟨"A", "B", "knows"⟩]).1

set_option maxRecDepth 100000 in
theorem delete_entity_cascades_witness :
    ((delete_entity dbC2 "A").2 = none ∧
      obs_of (delete_entity dbC2 "A").1 "A" = [] ∧
      (∀ rel ∈ (delete_entity dbC2 "A").1.relations,
        rel.source ≠ "A" ∧ rel.target ≠ "A") ∧
      (∀ v ∈ (delete_entity dbC2 "A").1.vec, v.rowid ≠ 1) ∧
      get_entity (delete_entity dbC2 "A").1 "A" =
        .error ("Entity not found: " ++ "A")) ∧
    delete_entity dbC2 "Zed" =
      (dbC2, some ("Failed to delete entity " ++ "Zed" ++
        ": Entity not found")) := by
  refine ⟨?_, (delete_entity_cascades dbC2 "Zed").2 rfl⟩
  exact (delete_entity_cascades dbC2 "A").1 ⟨1, "A", "T", 0⟩ rfl

/-- Two relation rows carry the same `(source, target, relation_type)`
triple. -/
def same_triple (a b : RelRow) : Prop :=
  a.source = b.source ∧ a.target = b.target ∧
    a.relation_type = b.relation_type

instance : DecidableRel same_triple := fun _ _ => by
  unfold same_triple; infer_instance

/-- The `UNIQUE(source, target, relation_type)` invariant: no two rows of
the relations table share a triple. -/
def triples_nodup (rels : List RelRow) : Prop :=
  rels.Pairwise (fun a b => ¬ same_triple a b)

instance (rels : List RelRow) : Decidable (triples_nodup rels) := by
  unfold triples_nodup; infer_instance

lemma has_triple_iff (rels : List RelRow) (r : RelRow) :
    has_triple rels r = true ↔ ∃ x ∈ rels, same_triple x r := by
  simp [has_triple, same_triple, List.any_eq_true, and_assoc]

lemma insert_relation_nodup {db : DB} {r : RelRow} {db' : DB}
    (hnd : triples_nodup db.relations)
    (h : insert_relation db r = .ok db') : triples_nodup db'.relations := by
  unfold insert_relation at h
  by_cases hdup : has_triple db.relations r = true
  · rw [if_pos hdup] at h
    cases h
    exact hnd
  · rw [if_neg hdup] at h
    split at h
    · cases h
      unfold triples_nodup
      rw [List.pairwise_append]
      refine ⟨hnd, List.pairwise_singleton .., ?_⟩
      intro a ha b hb
      rw [List.mem_singleton] at hb
      intro hsame
      exact hdup ((has_triple_iff ..).mpr ⟨a, ha, hb ▸ hsame⟩)
    · cases h

lemma create_rel_go_nodup (rs : List RelRow) :
    ∀ db : DB, triples_nodup db.relations →
      ∀ db', create_relations_go db rs = .ok db' →
        triples_nodup db'.relations := by
  induction rs with
  | nil =>
      intro db hnd db' h
      cases h
      exact hnd
  | cons r tl ih =>
      intro db hnd db' h
      unfold create_relations_go at h
      cases hi : insert_relation db r with
      | error m => rw [hi] at h; cases h
      | ok db1 =>
          rw [hi] at h
          exact ih db1 (insert_relation_nodup hnd hi) db' h

/-- C3: creating a relation triple identical to one already stored is a
silent no-op (state and result unchanged, no error), and `create_relations`
preserves the invariant that at most one stored relation carries any
given triple. -/
theorem relation_dedup (db : DB) (rs : List RelRow) (t : RelRow)
    (hnd : triples_nodup db.relations)
    (ht : has_triple db.relations t = true) :
    create_relations db [t] = (db, none) ∧
    triples_nodup (create_relations db rs).1.relations := by
  constructor
  · simp [create_relations, create_relations_go, insert_relation, ht]
  · unfold create_relations
    split
    · exact hnd
    · cases hg : create_relations_go db rs with
      | error m => simp [hg, hnd]
      | ok db1 => simpa [hg] using create_rel_go_nodup rs db hnd db1 hg

def dbC3 : DB :=
  (create_relations
    (create_entities DB.empty
      [⟨"A", "T", ["o"], none⟩, ⟨"B", "T", ["o"], none⟩]).1
    [⟨"A", "B", "knows"⟩]).1

theorem relation_dedup_witness :
    create_relations dbC3 [⟨"A", "B", "knows"⟩] = (dbC3, none) ∧
    triples_nodup
      (create_relations dbC3 [⟨"A", "B", "knows"⟩]).1.relations :=
  relation_dedup dbC3 [⟨"A", "B", "knows"⟩] ⟨"A", "B", "knows"⟩
    (by decide) (by decide)

lemma insert_relation_entities {db : DB} {r : RelRow} {db' : DB}
    (h : insert_relation db r = .ok db') : db'.entities = db.entities := by
  unfold insert_relation at h
  split at h
  · cases h; rfl
  split at h
  · cases h; rfl
  · cases h

lemma create_rel_go_ok (rs : List RelRow) :
    ∀ db : DB,
      (∀ r ∈ rs, entity_exists db r.source = true ∧
        entity_exists db r.target = true) →
      ∃ db', create_relations_go db rs = .ok db' := by
  induction rs with
  | nil => exact fun db _ => ⟨db, rfl⟩
  | cons r tl ih =>
      intro db h
      have hr := h r (List.mem_cons_self ..)
      have hins : ∃ db1, insert_relation db r = .ok db1 := by
        unfold insert_relation
        split
        · exact ⟨db, rfl⟩
        · rw [if_pos (by simp [hr.1, hr.2])]
          exact ⟨_, rfl⟩
      rcases hins with ⟨db1, h1⟩
      have hent := insert_relation_entities h1
      obtain ⟨db', hgo⟩ := ih db1 (fun x hx => by
        have := h x (List.mem_cons_of_mem _ hx)
        simpa only [entity_exists, findEntity, hent] using this)
      exact ⟨db', by simp only [create_relations_go, h1, hgo]⟩

/-- C9 (counterexample): a `create_relations` batch whose target does not
name an existing entity fails — the `FOREIGN KEY` constraints on the
relations table are enforced (`PRAGMA foreign_keys = ON`) and are not
suppressed by `INSERT OR IGNORE`, contradicting the claim that the call
succeeds for every batch of string triples. -/
theorem create_relations_fk_failure :
    (create_relations dbC1 [⟨"A", "B", "knows"⟩]).2.isSome = true := by
  decide

/-- C9 (amended): `create_relations` succeeds — duplicates silently
absorbed — whenever every triple's source and target name existing
entities; endpoint existence IS enforced at write time. -/
theorem create_relations_ok_when_endpoints_exist (db : DB)
    (rs : List RelRow)
    (h : ∀ r ∈ rs, entity_exists db r.source = true ∧
      entity_exists db r.target = true) :
    (create_relations db rs).2 = none := by
  unfold create_relations
  split
  · rfl
  · obtain ⟨db', hgo⟩ := create_rel_go_ok rs db h
    simp [hgo]

theorem create_relations_ok_witness :
    (create_relations dbC3 [⟨"B", "A", "seen-by"⟩]).2 = none :=
  create_relations_ok_when_endpoints_exist dbC3 [⟨"B", "A", "seen-by"⟩]
    (by decide)

/-- C5: the rows returned by text search are ordered by field precedence
(name match, score 3, before type match, score 2, before observation-only
match, score 1) regardless of recency, and within equal score by creation
time, most recent first; `search_entities` returns exactly these rows
completed with their observations. -/
theorem search_ranking_order (db : DB) (q : String) (limit : Int) :
    List.Pairwise (search_le (search_pattern q))
      (search_rows db q limit) ∧
    search_entities db q limit =
      (search_rows db q limit).map (entity_of db) := by
  refine ⟨?_, rfl⟩
  unfold search_rows
  exact List.Pairwise.sublist (List.take_sublist ..)
    (List.sorted_insertionSort (search_le (search_pattern q)) _)

lemma search_entities_length (db : DB) (q : String) (limit : Int) :
    (search_entities db q limit).length =
      min (effective_limit limit)
        (db.entities.filter
          (entity_matches db (search_pattern q))).length := by
  unfold search_entities search_rows
  simp [List.length_take]

/-- C6: the text-search limit is clamped into `[1, 50]` (default 10): any
call returns at most 50 results, and — whatever the limit, including 0 or
negative — at least one result whenever some entity matches the query;
out-of-range limits are never an error (the operation is total). -/
theorem search_limit_clamped (db : DB) (q : String) (limit : Int) :
    (search_entities db q limit).length ≤ 50 ∧
    (db.entities.filter (entity_matches db (search_pattern q)) ≠ [] →
      1 ≤ (search_entities db q limit).length) := by
  rw [search_entities_length]
  constructor
  · calc min (effective_limit limit) _ ≤ effective_limit limit :=
          Nat.min_le_left ..
      _ ≤ 50 := by unfold effective_limit; omega
  · intro hne
    have h1 : 1 ≤ effective_limit limit := by
      unfold effective_limit; omega
    have h2 : 1 ≤ (db.entities.filter
        (entity_matches db (search_pattern q))).length :=
      Nat.one_le_iff_ne_zero.mpr
        (by simpa [List.length_eq_zero] using hne)
    omega

def dbC6 : DB :=
  (create_entities DB.empty [⟨"foo", "T", ["o"], none⟩]).1

theorem search_limit_clamped_witness :
    (search_entities dbC6 "foo" 1000).length ≤ 50 ∧
    1 ≤ (search_entities dbC6 "foo" 0).length :=
  ⟨(search_limit_clamped dbC6 "foo" 1000).1,
    (search_limit_clamped dbC6 "foo" 0).2 (by decide)⟩

/-- Is the list empty or starting with a non-separator character (i.e.
not starting inside a separator run)? -/
def head_ok : List Char → Bool
  | [] => true
  | c :: _ => !isSep c

/-- Two character lists differ only in their (maximal) runs of
whitespace/underscore/hyphen separators: equal non-separator characters
in order, with corresponding nonempty separator runs in between. -/
inductive SepRunEquiv : List Char → List Char → Prop
  | nil : SepRunEquiv [] []
  | cons (c : Char) (h : isSep c = false) {s t : List Char}
      (ht : SepRunEquiv s t) : SepRunEquiv (c :: s) (c :: t)
  | run {r₁ r₂ s t : List Char} (h₁ : r₁ ≠ []) (h₂ : r₂ ≠ [])
      (ha : ∀ c ∈ r₁, isSep c = true) (hb : ∀ c ∈ r₂, isSep c = true)
      (hs : head_ok s = true) (ht2 : head_ok t = true)
      (ht : SepRunEquiv s t) : SepRunEquiv (r₁ ++ s) (r₂ ++ t)

lemma normGo_run (r : List Char) (hr : ∀ c ∈ r, isSep c = true)
    (s : List Char) : normGo true (r ++ s) = normGo true s := by
  induction r with
  | nil => rfl
  | cons c cs ih =>
      have hc : isSep c = true := hr c (by simp)
      simp only [List.cons_append, normGo, hc, if_true]
      exact ih (fun x hx => hr x (by simp [hx]))

lemma normGo_true_of_head_ok (s : List Char) (hs : head_ok s = true) :
    normGo true s = normGo false s := by
  cases s with
  | nil => rfl
  | cons c cs =>
      simp only [head_ok, Bool.not_eq_true'] at hs
      simp [normGo, hs]

lemma normGo_false_run (r s : List Char) (h : r ≠ [])
    (hr : ∀ c ∈ r, isSep c = true) :
    normGo false (r ++ s) = '%' :: normGo true s := by
  cases r with
  | nil => exact absurd rfl h
  | cons c cs =>
      have hc : isSep c = true := hr c (by simp)
      rw [show normGo false (c :: cs ++ s) =
            '%' :: normGo true (cs ++ s) by simp [normGo, hc]]
      rw [normGo_run cs (fun x hx => hr x (by simp [hx]))]

lemma sep_equiv_norm {s t : List Char} (h : SepRunEquiv s t) :
    normChars s = normChars t := by
  unfold normChars
  induction h with
  | nil => rfl
  | cons c hc _ ih => simp [normGo, hc, ih]
  | run h1 h2 ha hb hs ht2 _ ih =>
      rw [normGo_false_run _ _ h1 ha, normGo_false_run _ _ h2 hb,
        normGo_true_of_head_ok _ hs, normGo_true_of_head_ok _ ht2, ih]

/-- C7: text queries that differ only in runs of whitespace, underscores
and hyphens produce identical search results — the normalization step
collapses every such run into the same wildcard. -/
theorem search_separator_equiv (db : DB) (q₁ q₂ : String) (limit : Int)
    (h : SepRunEquiv q₁.data q₂.data) :
    search_entities db q₁ limit = search_entities db q₂ limit := by
  have hp : search_pattern q₁ = search_pattern q₂ := by
    unfold search_pattern
    rw [sep_equiv_norm h]
  unfold search_entities search_rows
  rw [hp]

lemma no_sep_refl (s : List Char)
    (h : s.all (fun c => !isSep c) = true) : SepRunEquiv s s := by
  induction s with
  | nil => exact .nil
  | cons c cs ih =>
      rw [List.all_cons, Bool.and_eq_true, Bool.not_eq_true'] at h
      exact .cons c h.1 (ih h.2)

def dbC7 : DB :=
  (create_entities DB.empty
    [⟨"webdev1", "web_development", ["o1"], none⟩,
     ⟨"webdev2", "web development", ["o2"], none⟩]).1

theorem search_separator_equiv_witness :
    SepRunEquiv "web-development".data "web_development".data ∧
    search_entities dbC7 "web-development" 10 =
      search_entities dbC7 "web_development" 10 ∧
    "webdev1" ∈
      (search_entities dbC7 "web-development" 10).map (·.name) ∧
    "webdev2" ∈
      (search_entities dbC7 "web-development" 10).map (·.name) := by
  have hd : SepRunEquiv "web-development".data "web_development".data := by
    have htl : SepRunEquiv "development".data "development".data :=
      no_sep_refl _ (by decide)
    exact .cons 'w' (by decide) (.cons 'e' (by decide)
      (.cons 'b' (by decide)
        (@SepRunEquiv.run ['-'] ['_'] "development".data
          "development".data (by decide) (by decide) (by decide)
          (by decide) (by decide) (by decide) htl)))
  exact ⟨hd, search_separator_equiv dbC7 "web-development"
    "web_development" 10 hd, by decide, by decide⟩

def dbC10 : DB :=
  (create_entities DB.empty [⟨"axxb", "T", ["obs"], none⟩]).1

/-- C10: the query is embedded unescaped in the LIKE pattern, so LIKE
metacharacters act as wildcards: searching `"a%b"` returns the entity
named `"axxb"` although `"a%b"` is not a literal substring of its name,
its type, or its observation. -/
theorem like_metachar_wildcard :
    (search_entities dbC10 "a%b" 10).map (·.name) = ["axxb"] ∧
    ¬ ("a%b".data <:+: "axxb".data) ∧
    ¬ ("a%b".data <:+: "T".data) ∧
    ¬ ("a%b".data <:+: "obs".data) := by
  decide

def e1536 : List Int := List.replicate 1536 1

def dbC8a : DB :=
  (create_entities DB.empty [⟨"A", "T", ["oa"], none⟩]).1

def dbC8ab : DB :=
  (create_entities dbC8a [⟨"B", "T", ["ob"], some e1536⟩]).1

set_option maxRecDepth 100000 in
/-- C8 (bug evaluation): after creating entity `A` without an embedding
and then entity `B` with a valid 1536-element embedding, both calls
succeed, yet the stored embedding is observable on `A` and absent on `B`:
`INSERT INTO entities_vec (embedding)` lets the vec table assign its own
rowid (here 1 = `A`'s rowid, not 2 = `B`'s), while every read joins
`entities_vec.rowid = entities.rowid` — the 1:1 association the spec
requires is violated. -/
theorem embedding_misassociation :
    (create_entities DB.empty [⟨"A", "T", ["oa"], none⟩]).2 = none ∧
    (create_entities dbC8a [⟨"B", "T", ["ob"], some e1536⟩]).2 = none ∧
    emb_of dbC8ab "A" = some e1536 ∧
    emb_of dbC8ab "B" = none ∧
    (get_entity dbC8ab "A").map (·.embedding) = .ok (some e1536) ∧
    (get_entity dbC8ab "B").map (·.embedding) = .ok none :=
  ⟨rfl, rfl, rfl, rfl, rfl, rfl⟩

end MemStore
